import Mathlib

/-!
Verification development for the TaskManager REST API (src/server.js).

The store is a MySQL database created by `initDatabase`:
  users(id AUTO_INCREMENT PK, name NOT NULL, email UNIQUE NOT NULL,
        created_at DEFAULT CURRENT_TIMESTAMP)
  tasks(id AUTO_INCREMENT PK, user_id INT NOT NULL, title NOT NULL,
        description TEXT, status ENUM(pending, in_progress, completed)
        DEFAULT pending, created_at, updated_at ON UPDATE CURRENT_TIMESTAMP,
        FOREIGN KEY (user_id) REFERENCES users(id) ON DELETE CASCADE)

We model the database as explicit state (lists of rows plus auto-increment
counters and a logical clock supplying timestamps), MySQL statement execution
in its default strict mode as `Except`-returning functions enforcing the
declared constraints (NOT NULL, UNIQUE email, the status ENUM, the foreign
key, the delete cascade), and every Express route handler of server.js as a
function from the request data and the store state to an HTTP response and
the successor state.  Connectivity failures of the pool are modelled by a
`reachable` flag: when it is false every query errors.  Error message texts
are abstracted (the code only forwards `error.message` into the JSON body,
so no claim depends on the exact text).
-/

namespace TaskManager

/-- A JavaScript value as found in a parsed JSON request body.  `undef`
stands for an absent field (`req.body.x === undefined`). -/
inductive JSVal where
  | undef
  | jnull
  | jstr (s : String)
  | jnum (n : Int)
  | jbool (b : Bool)
  deriving DecidableEq, Repr

/-- JavaScript truthiness, as used by `status || 'pending'` in the
POST /api/tasks handler: undefined, null, the empty string, 0 and false
are falsy. -/
def JSVal.truthy : JSVal → Bool
  | .undef => false
  | .jnull => false
  | .jstr s => !(s == "")
  | .jnum n => !(n == 0)
  | .jbool b => b

/-- A value bound into a parameterized SQL statement after client-side
escaping by the driver (`pool.query` escapes via sqlstring: both
`undefined` and `null` become SQL NULL; booleans become 1/0). -/
inductive SqlVal where
  | vnull
  | vstr (s : String)
  | vint (n : Int)
  deriving DecidableEq, Repr

/-- Driver escaping of a JS value into a SQL value. -/
def JSVal.toSql : JSVal → SqlVal
  | .undef => SqlVal.vnull
  | .jnull => SqlVal.vnull
  | .jstr s => SqlVal.vstr s
  | .jnum n => SqlVal.vint n
  | .jbool b => SqlVal.vint (if b then 1 else 0)

/-- The numeric value of a decimal digit character, if it is one. -/
def digitVal (c : Char) : Option Nat :=
  if c.isDigit then some (c.toNat - Char.toNat (Char.ofNat 48)) else none

/-- Accumulating decimal parse of a digit run; fails on a non-digit. -/
def parseDigitsAux : List Char → Nat → Option Nat
  | [], acc => some acc
  | c :: rest, acc =>
      match digitVal c with
      | some d => parseDigitsAux rest (acc * 10 + d)
      | none => none

/-- Decimal parse of a non-empty all-digit character list. -/
def parseDigits : List Char → Option Nat
  | [] => none
  | cs => parseDigitsAux cs 0

/-- MySQL coercion of a string (a `req.params` path segment or a bound
string parameter) to an integer for use against an INT column.  Decimal
numerals (optionally negative) are modelled exactly; MySQL parses a
numeric prefix of other strings with a warning, which we collapse to 0
(the requests of interest carry numerals). -/
def mysqlIntOfString (s : String) : Int :=
  match s.data with
  | '-' :: rest =>
      match parseDigits rest with
      | some n => -(n : Int)
      | none => 0
  | cs =>
      match parseDigits cs with
      | some n => (n : Int)
      | none => 0

/-- Coercion of a non-NULL SQL value to a string column value. -/
def sqlToString : SqlVal → String
  | SqlVal.vnull => ""
  | SqlVal.vstr s => s
  | SqlVal.vint n => toString n

/-- Storage for a nullable string column (description). -/
def sqlToNullable : SqlVal → Option String
  | SqlVal.vnull => none
  | SqlVal.vstr s => some s
  | SqlVal.vint n => some (toString n)

/-- Coercion of a SQL value to an INT column value. -/
def sqlToInt : SqlVal → Int
  | SqlVal.vnull => 0
  | SqlVal.vstr s => mysqlIntOfString s
  | SqlVal.vint n => n

/-- The allowed values of the tasks.status ENUM, in declaration order. -/
def enumVals : List String := ["pending", "in_progress", "completed"]

/-- Strict-mode storage into the nullable status ENUM column: NULL is
stored as NULL, a member string is stored as itself, an in-range integer
selects by 1-based index, anything else is a data error (`none`). -/
def enumStore : SqlVal → Option (Option String)
  | SqlVal.vnull => some none
  | SqlVal.vstr s => if s ∈ enumVals then some (some s) else none
  | SqlVal.vint n =>
      if 1 ≤ n ∧ n ≤ 3 then some (some (enumVals.getD (n - 1).toNat "pending"))
      else none

/-- A row of the users table. -/
structure UserRow where
  id : Int
  name : String
  email : String
  created_at : Nat
  deriving DecidableEq, Repr

/-- A row of the tasks table. -/
structure TaskRow where
  id : Int
  user_id : Int
  title : String
  description : Option String
  status : Option String
  created_at : Nat
  updated_at : Nat
  deriving DecidableEq, Repr

/-- The database state: the two tables, the AUTO_INCREMENT counters and a
logical clock supplying CURRENT_TIMESTAMP values. -/
structure DB where
  users : List UserRow
  tasks : List TaskRow
  nextUserId : Int
  nextTaskId : Int
  now : Nat
  deriving DecidableEq, Repr

/-- The state right after `initDatabase` succeeded on a fresh database:
both tables empty, AUTO_INCREMENT counters at 1. -/
def dbInit : DB := ⟨[], [], 1, 1, 0⟩

/-- Abstracted driver message for a pool connectivity failure. -/
def connErr : String := "connect ECONNREFUSED"

/-- Abstracted MySQL duplicate-key message for the UNIQUE email index. -/
def dupEmailErr : String := "Duplicate entry for key users.email"

/-- Abstracted MySQL strict-mode message for a NOT NULL violation. -/
def nullErr (c : String) : String := "Column " ++ c ++ " cannot be null"

/-- Abstracted MySQL strict-mode message for a bad ENUM value. -/
def statusErr : String := "Data truncated for column status"

/-- Abstracted MySQL message for a foreign key violation. -/
def fkErr : String := "a foreign key constraint fails"

/-- INSERT INTO users (name, email) VALUES (?, ?) under the schema of
`initDatabase`: NOT NULL on both columns, UNIQUE on email; on success the
row receives the next AUTO_INCREMENT id and CURRENT_TIMESTAMP. -/
def insertUser (reachable : Bool) (name email : SqlVal) (db : DB) :
    Except String (Int × DB) :=
  if !reachable then Except.error connErr
  else if name = SqlVal.vnull then Except.error (nullErr "name")
  else if email = SqlVal.vnull then Except.error (nullErr "email")
  else if db.users.any (fun u => u.email = sqlToString email) then
    Except.error dupEmailErr
  else
    Except.ok (db.nextUserId,
      { db with
        users := db.users ++
          [⟨db.nextUserId, sqlToString name, sqlToString email, db.now⟩]
        nextUserId := db.nextUserId + 1
        now := db.now + 1 })

/-- INSERT INTO tasks (user_id, title, description, status) VALUES
(?, ?, ?, ?) under the schema of `initDatabase`: NOT NULL on user_id and
title, the status ENUM check, and the foreign key to users(id). -/
def insertTask (reachable : Bool) (user_id title description status : SqlVal)
    (db : DB) : Except String (Int × DB) :=
  if !reachable then Except.error connErr
  else if user_id = SqlVal.vnull then Except.error (nullErr "user_id")
  else if title = SqlVal.vnull then Except.error (nullErr "title")
  else
    match enumStore status with
    | none => Except.error statusErr
    | some st =>
        if db.users.any (fun u => u.id = sqlToInt user_id) then
          Except.ok (db.nextTaskId,
            { db with
              tasks := db.tasks ++
                [⟨db.nextTaskId, sqlToInt user_id, sqlToString title,
                  sqlToNullable description, st, db.now, db.now⟩]
              nextTaskId := db.nextTaskId + 1
              now := db.now + 1 })
        else Except.error fkErr

/-- UPDATE tasks SET title = ?, description = ?, status = ? WHERE id = ?.
When no row matches, the statement succeeds affecting zero rows.  When a
row matches, strict mode rejects a NULL title (NOT NULL) and a bad ENUM
value; otherwise all three columns are written and updated_at is refreshed
(ON UPDATE CURRENT_TIMESTAMP). -/
def updateTask (reachable : Bool) (title description status : SqlVal)
    (tid : Int) (db : DB) : Except String DB :=
  if !reachable then Except.error connErr
  else if db.tasks.any (fun t => t.id = tid) then
    if title = SqlVal.vnull then Except.error (nullErr "title")
    else
      match enumStore status with
      | none => Except.error statusErr
      | some st =>
          Except.ok
            { db with
              tasks := db.tasks.map (fun t =>
                if t.id = tid then
                  { t with
                    title := sqlToString title
                    description := sqlToNullable description
                    status := st
                    updated_at := db.now }
                else t)
              now := db.now + 1 }
  else Except.ok db

/-- DELETE FROM tasks WHERE id = ?: removes any matching row, succeeding
whether or not one existed. -/
def deleteTaskRow (reachable : Bool) (tid : Int) (db : DB) :
    Except String DB :=
  if !reachable then Except.error connErr
  else Except.ok { db with tasks := db.tasks.filter (fun t => !(t.id = tid)) }

/-- DELETE FROM users WHERE id = ? at the store level, with the
ON DELETE CASCADE declared by `initDatabase` on tasks.user_id: removing a
user removes, in the same operation, every task referencing it.  (No HTTP
endpoint exposes this; it is the schema-level semantics of the DDL.) -/
def deleteUser (db : DB) (uid : Int) : DB :=
  { db with
    users := db.users.filter (fun u => !(u.id = uid))
    tasks := db.tasks.filter (fun t => !(t.user_id = uid)) }

/-- A JSON value as produced by `res.json`. -/
inductive Json where
  | jnull
  | jbool (b : Bool)
  | jnum (n : Int)
  | jstr (s : String)
  | jarr (xs : List Json)
  | jobj (kvs : List (String × Json))

/-- JSON encoding of a (present) JS value. -/
def JSVal.toJson : JSVal → Json
  | JSVal.undef => Json.jnull
  | JSVal.jnull => Json.jnull
  | JSVal.jstr s => Json.jstr s
  | JSVal.jnum n => Json.jnum n
  | JSVal.jbool b => Json.jbool b

/-- An object field built from a JS value: JSON.stringify drops fields
whose value is undefined. -/
def jsField (k : String) (v : JSVal) : List (String × Json) :=
  match v with
  | JSVal.undef => []
  | v => [(k, v.toJson)]

/-- JSON encoding of an optional (nullable) string column. -/
def optStrJson : Option String → Json
  | none => Json.jnull
  | some s => Json.jstr s

/-- An HTTP response: status code and JSON body. -/
structure Response where
  status : Nat
  body : Json

/-- The uniform error body `{ error: message }` every API handler emits
from its catch block. -/
def errBody (m : String) : Json := Json.jobj [("error", Json.jstr m)]

/-- JSON row shape of SELECT * FROM users. -/
def UserRow.toJson (u : UserRow) : Json :=
  Json.jobj [("id", Json.jnum u.id), ("name", Json.jstr u.name),
    ("email", Json.jstr u.email),
    ("created_at", Json.jnum (Int.ofNat u.created_at))]

/-- Ordering used by ORDER BY created_at DESC on users. -/
def userCreatedDesc (a b : UserRow) : Prop := b.created_at ≤ a.created_at

instance : DecidableRel userCreatedDesc := fun a b =>
  inferInstanceAs (Decidable (b.created_at ≤ a.created_at))

/-- A row of the task listing join: all task columns plus the owning
user's name and email. -/
structure JoinedRow where
  task : TaskRow
  user_name : String
  user_email : String
  deriving DecidableEq, Repr

def mkJoined (t : TaskRow) (u : UserRow) : JoinedRow := ⟨t, u.name, u.email⟩

def JoinedRow.created_at (r : JoinedRow) : Nat := r.task.created_at

def JoinedRow.user_id (r : JoinedRow) : Int := r.task.user_id

/-- JSON row shape of SELECT t.*, u.name as user_name, u.email as
user_email. -/
def JoinedRow.toJson (r : JoinedRow) : Json :=
  Json.jobj [("id", Json.jnum r.task.id), ("user_id", Json.jnum r.task.user_id),
    ("title", Json.jstr r.task.title),
    ("description", optStrJson r.task.description),
    ("status", optStrJson r.task.status),
    ("created_at", Json.jnum (Int.ofNat r.task.created_at)),
    ("updated_at", Json.jnum (Int.ofNat r.task.updated_at)),
    ("user_name", Json.jstr r.user_name),
    ("user_email", Json.jstr r.user_email)]

/-- Ordering used by ORDER BY t.created_at DESC on the join. -/
def joinedCreatedDesc (a b : JoinedRow) : Prop :=
  b.task.created_at ≤ a.task.created_at

instance : DecidableRel joinedCreatedDesc := fun a b =>
  inferInstanceAs (Decidable (b.task.created_at ≤ a.task.created_at))

instance : IsTotal JoinedRow joinedCreatedDesc :=
  ⟨fun a b => Nat.le_total b.task.created_at a.task.created_at⟩

instance : IsTrans JoinedRow joinedCreatedDesc :=
  ⟨fun _ _ _ hab hbc => Nat.le_trans hbc hab⟩

/-- The raw rows of FROM tasks t JOIN users u ON t.user_id = u.id
(inner join: one output row per matching pair). -/
def joinRows (db : DB) : List JoinedRow :=
  db.tasks.flatMap (fun t =>
    (db.users.filter (fun u => u.id = t.user_id)).map (mkJoined t))

/-- The result rows of the task listing query, after
ORDER BY t.created_at DESC. -/
def taskListRows (db : DB) : List JoinedRow :=
  List.insertionSort joinedCreatedDesc (joinRows db)

/-- GET /health: SELECT 1 probes the pool; on success 200 with the
healthy body, on failure 500 with `{ status: unhealthy, error }`. -/
def healthHandler (reachable : Bool) (db : DB) : Response × DB :=
  if reachable then
    (⟨200, Json.jobj [("status", Json.jstr "healthy"),
      ("database", Json.jstr "connected"),
      ("timestamp", Json.jnum (Int.ofNat db.now))]⟩, db)
  else
    (⟨500, Json.jobj [("status", Json.jstr "unhealthy"),
      ("error", Json.jstr connErr)]⟩, db)

/-- GET /api/users: SELECT * FROM users ORDER BY created_at DESC. -/
def getUsersHandler (reachable : Bool) (db : DB) : Response × DB :=
  if reachable then
    (⟨200, Json.jarr ((List.insertionSort userCreatedDesc db.users).map
      UserRow.toJson)⟩, db)
  else (⟨500, errBody connErr⟩, db)

/-- POST /api/users: destructures { name, email } from the body, runs the
parameterized INSERT, answers 201 `{ id, name, email }` on success and 500
`{ error }` on failure. -/
def postUsersHandler (reachable : Bool) (name email : JSVal) (db : DB) :
    Response × DB :=
  match insertUser reachable name.toSql email.toSql db with
  | Except.ok (newId, db2) =>
      (⟨201, Json.jobj ([("id", Json.jnum newId)] ++ jsField "name" name ++
        jsField "email" email)⟩, db2)
  | Except.error m => (⟨500, errBody m⟩, db)

/-- GET /api/tasks: the join query, answered as a JSON array. -/
def getTasksHandler (reachable : Bool) (db : DB) : Response × DB :=
  if reachable then
    (⟨200, Json.jarr ((taskListRows db).map JoinedRow.toJson)⟩, db)
  else (⟨500, errBody connErr⟩, db)

/-- The 201 body of POST /api/tasks: `{ id: result.insertId, ...req.body }`
(spread of the parsed body; absent fields are dropped by the serializer). -/
def taskEcho (newId : Int) (user_id title description status : JSVal) : Json :=
  Json.jobj ([("id", Json.jnum newId)] ++ jsField "user_id" user_id ++
    jsField "title" title ++ jsField "description" description ++
    jsField "status" status)

/-- POST /api/tasks: destructures { user_id, title, description, status },
inserts with `status || 'pending'` (JS truthiness defaulting), answers 201
echoing the body plus the generated id, or 500 `{ error }`. -/
def postTasksHandler (reachable : Bool)
    (user_id title description status : JSVal) (db : DB) : Response × DB :=
  match insertTask reachable user_id.toSql title.toSql description.toSql
      (if status.truthy then status else JSVal.jstr "pending").toSql db with
  | Except.ok (newId, db2) =>
      (⟨201, taskEcho newId user_id title description status⟩, db2)
  | Except.error m => (⟨500, errBody m⟩, db)

/-- PUT /api/tasks/:id: writes title, description and status
unconditionally from the body, answers 200 `{ message, id }` (the path id
echoed as given) regardless of whether a row matched, or 500 `{ error }`. -/
def putTaskHandler (reachable : Bool) (idParam : String)
    (title description status : JSVal) (db : DB) : Response × DB :=
  match updateTask reachable title.toSql description.toSql status.toSql
      (mysqlIntOfString idParam) db with
  | Except.ok db2 =>
      (⟨200, Json.jobj [("message", Json.jstr "Task updated"),
        ("id", Json.jstr idParam)]⟩, db2)
  | Except.error m => (⟨500, errBody m⟩, db)

/-- DELETE /api/tasks/:id: deletes any matching row, answers 200
`{ message, id }` whether or not one existed, or 500 `{ error }`. -/
def deleteTaskHandler (reachable : Bool) (idParam : String) (db : DB) :
    Response × DB :=
  match deleteTaskRow reachable (mysqlIntOfString idParam) db with
  | Except.ok db2 =>
      (⟨200, Json.jobj [("message", Json.jstr "Task deleted"),
        ("id", Json.jstr idParam)]⟩, db2)
  | Except.error m => (⟨500, errBody m⟩, db)

/-- An API request (the JSON-handling surface of server.js). -/
inductive Request where
  | health
  | getUsers
  | postUsers (name email : JSVal)
  | getTasks
  | postTasks (user_id title description status : JSVal)
  | putTask (idParam : String) (title description status : JSVal)
  | deleteTask (idParam : String)

/-- Dispatch of a request to its route handler. -/
def handle (req : Request) (reachable : Bool) (db : DB) : Response × DB :=
  match req with
  | Request.health => healthHandler reachable db
  | Request.getUsers => getUsersHandler reachable db
  | Request.postUsers n e => postUsersHandler reachable n e db
  | Request.getTasks => getTasksHandler reachable db
  | Request.postTasks u t d s => postTasksHandler reachable u t d s db
  | Request.putTask i t d s => putTaskHandler reachable i t d s db
  | Request.deleteTask i => deleteTaskHandler reachable i db

/-- The store states reachable from a fresh database through the exposed
mutating operations (any request, reachable or not) and the store-level
user deletion permitted by the schema. -/
inductive Reach : DB → Prop where
  | init : Reach dbInit
  | stepUser : ∀ {db} (r : Bool) (n e : JSVal), Reach db →
      Reach (postUsersHandler r n e db).2
  | stepTask : ∀ {db} (r : Bool) (u t d s : JSVal), Reach db →
      Reach (postTasksHandler r u t d s db).2
  | stepPut : ∀ {db} (r : Bool) (i : String) (t d s : JSVal), Reach db →
      Reach (putTaskHandler r i t d s db).2
  | stepDelTask : ∀ {db} (r : Bool) (i : String), Reach db →
      Reach (deleteTaskHandler r i db).2
  | stepDelUser : ∀ {db} (uid : Int), Reach db → Reach (deleteUser db uid)

/-- Result of `initDatabase`: the two CREATE TABLE statements run in
order; the first failure propagates (the catch block logs and rethrows). -/
def initDatabase (q1 q2 : Except String Unit) : Except String Unit :=
  match q1 with
  | Except.error e => Except.error e
  | Except.ok _ => q2

/-- Observable fate of the process at startup. -/
inductive StartOutcome where
  | listening
  | exited (code : Nat)
  deriving DecidableEq, Repr

/-- initDatabase().then(() =&gt; app.listen(PORT)).catch(e =&gt; process.exit(1)):
the listener is installed only in the fulfillment callback, and a rejection
terminates the process with code 1. -/
def startServer (q1 q2 : Except String Unit) : StartOutcome :=
  match initDatabase q1 q2 with
  | Except.ok _ => StartOutcome.listening
  | Except.error _ => StartOutcome.exited 1

end TaskManager

namespace TaskManager

/-- A database reached by creating one user (id 1) and one task (id 1,
owned by user 1, status defaulted to pending) from a fresh store. -/
def dbOneTask : DB :=
  (postTasksHandler true (JSVal.jnum 1) (JSVal.jstr "Write report")
    JSVal.undef JSVal.undef
    (postUsersHandler true (JSVal.jstr "Alice")
      (JSVal.jstr "alice at example.com") dbInit).2).2

/-- C6: the process never accepts HTTP requests before the Schema Manager
has completed successfully, and if either table-creation statement fails
at startup the entire process terminates with exit code 1 (no request is
ever served against an unverified schema). -/
theorem startup_listens_only_after_schema (q1 q2 : Except String Unit) :
    (startServer q1 q2 = StartOutcome.listening ↔
      (q1 = Except.ok () ∧ q2 = Except.ok ())) ∧
    (¬(q1 = Except.ok () ∧ q2 = Except.ok ()) →
      startServer q1 q2 = StartOutcome.exited 1) := by
  cases q1 <;> cases q2 <;> simp [startServer, initDatabase]

theorem startup_listens_only_after_schema_witness :
    startServer (Except.error "table creation failed") (Except.ok ())
      = StartOutcome.exited 1 :=
  (startup_listens_only_after_schema (Except.error "table creation failed")
    (Except.ok ())).2 (by simp)

/-- C1: with any user already stored under an email, a create-user request
for that same email answers 500 with the duplicate-key error body and
leaves the users table unchanged (in particular a one-user store still
holds exactly one user). -/
theorem createUser_duplicate_email_conflict (db : DB) (u : UserRow)
    (name e : String) (hu : u ∈ db.users) (he : u.email = e) :
    (postUsersHandler true (JSVal.jstr name) (JSVal.jstr e) db).1.status = 500 ∧
    (postUsersHandler true (JSVal.jstr name) (JSVal.jstr e) db).1.body =
      errBody dupEmailErr ∧
    (postUsersHandler true (JSVal.jstr name) (JSVal.jstr e) db).2 = db := by
  have hx : ∃ x ∈ db.users, x.email = sqlToString (SqlVal.vstr e) :=
    ⟨u, hu, by simp [sqlToString, he]⟩
  have hins : insertUser true (JSVal.jstr name).toSql (JSVal.jstr e).toSql db
      = Except.error dupEmailErr := by
    unfold insertUser
    simp [JSVal.toSql, hx]
  simp [postUsersHandler, hins]

theorem createUser_duplicate_email_conflict_witness :
    (⟨1, "Alice", "alice at example.com", 0⟩ : UserRow) ∈ dbOneTask.users ∧
    (postUsersHandler true (JSVal.jstr "Bob")
      (JSVal.jstr "alice at example.com") dbOneTask).1.status = 500 ∧
    (postUsersHandler true (JSVal.jstr "Bob")
      (JSVal.jstr "alice at example.com") dbOneTask).2 = dbOneTask := by
  refine ⟨by decide, ?_, ?_⟩
  · exact (createUser_duplicate_email_conflict dbOneTask
      ⟨1, "Alice", "alice at example.com", 0⟩ "Bob" "alice at example.com"
      (by decide) rfl).1
  · exact (createUser_duplicate_email_conflict dbOneTask
      ⟨1, "Alice", "alice at example.com", 0⟩ "Bob" "alice at example.com"
      (by decide) rfl).2.2

/-- C2: a create-task request whose user_id is a number not matching any
stored user answers 500 (whatever the other body fields are) and creates
no task row: the tasks table is exactly as before. -/
theorem createTask_nonexistent_user_rejected (db : DB) (uid : Int)
    (title description status : JSVal)
    (h : ∀ u ∈ db.users, u.id ≠ uid) :
    (postTasksHandler true (JSVal.jnum uid) title description status db).1.status
      = 500 ∧
    (postTasksHandler true (JSVal.jnum uid) title description status db).2
      = db := by
  have hany : db.users.any
      (fun v => v.id = sqlToInt (JSVal.toSql (JSVal.jnum uid))) = false := by
    rw [List.any_eq_false]
    intro v hv
    simp [JSVal.toSql, sqlToInt]
    exact h v hv
  have hins : ∃ m, insertTask true (JSVal.jnum uid).toSql title.toSql
      description.toSql
      ((if status.truthy then status else JSVal.jstr "pending").toSql) db
      = Except.error m := by
    unfold insertTask
    simp only [Bool.not_true, Bool.false_eq_true, if_false]
    by_cases h1 : (JSVal.jnum uid).toSql = SqlVal.vnull
    · exact ⟨_, by rw [if_pos h1]⟩
    rw [if_neg h1]
    by_cases h2 : title.toSql = SqlVal.vnull
    · exact ⟨_, by rw [if_pos h2]⟩
    rw [if_neg h2]
    cases henum : enumStore
        ((if status.truthy then status else JSVal.jstr "pending").toSql) with
    | none => exact ⟨statusErr, rfl⟩
    | some st => exact ⟨fkErr, by simp [hany]⟩
  rcases hins with ⟨m, hm⟩
  simp [postTasksHandler, hm]

theorem createTask_nonexistent_user_rejected_witness :
    (∀ u ∈ dbOneTask.users, u.id ≠ (42 : Int)) ∧
    (postTasksHandler true (JSVal.jnum 42) (JSVal.jstr "Orphan task")
      JSVal.undef JSVal.undef dbOneTask).1.status = 500 ∧
    (postTasksHandler true (JSVal.jnum 42) (JSVal.jstr "Orphan task")
      JSVal.undef JSVal.undef dbOneTask).2 = dbOneTask := by
  refine ⟨by decide, ?_, ?_⟩
  · exact (createTask_nonexistent_user_rejected dbOneTask 42
      (JSVal.jstr "Orphan task") JSVal.undef JSVal.undef (by decide)).1
  · exact (createTask_nonexistent_user_rejected dbOneTask 42
      (JSVal.jstr "Orphan task") JSVal.undef JSVal.undef (by decide)).2

/-- C4: on a task id matching no stored task, the update handler and the
delete handler both answer 200 with the given id echoed in the
confirmation body, and the store is unchanged. -/
theorem update_delete_nonexistent_task_noop (db : DB) (idParam : String)
    (title description status : JSVal)
    (h : ∀ t ∈ db.tasks, t.id ≠ mysqlIntOfString idParam) :
    (putTaskHandler true idParam title description status db).1.status = 200 ∧
    (putTaskHandler true idParam title description status db).1.body =
      Json.jobj [("message", Json.jstr "Task updated"),
        ("id", Json.jstr idParam)] ∧
    (putTaskHandler true idParam title description status db).2 = db ∧
    (deleteTaskHandler true idParam db).1.status = 200 ∧
    (deleteTaskHandler true idParam db).1.body =
      Json.jobj [("message", Json.jstr "Task deleted"),
        ("id", Json.jstr idParam)] ∧
    (deleteTaskHandler true idParam db).2 = db := by
  have hany : db.tasks.any (fun t => t.id = mysqlIntOfString idParam)
      = false := by
    rw [List.any_eq_false]
    intro t ht
    simp
    exact h t ht
  have hupd : updateTask true title.toSql description.toSql status.toSql
      (mysqlIntOfString idParam) db = Except.ok db := by
    unfold updateTask
    simp [hany]
  have hfilter : db.tasks.filter (fun t => !(t.id = mysqlIntOfString idParam))
      = db.tasks := by
    rw [List.filter_eq_self]
    intro t ht
    simp
    exact h t ht
  have hdel : deleteTaskRow true (mysqlIntOfString idParam) db
      = Except.ok db := by
    unfold deleteTaskRow
    simp [hfilter]
  refine ⟨?_, ?_, ?_, ?_, ?_, ?_⟩ <;>
    simp [putTaskHandler, deleteTaskHandler, hupd, hdel]

theorem update_delete_nonexistent_task_noop_witness :
    (∀ t ∈ dbOneTask.tasks, t.id ≠ mysqlIntOfString "999") ∧
    (putTaskHandler true "999" (JSVal.jstr "X") JSVal.undef JSVal.undef
      dbOneTask).2 = dbOneTask ∧
    (deleteTaskHandler true "999" dbOneTask).2 = dbOneTask := by
  refine ⟨by decide, ?_, ?_⟩
  · exact (update_delete_nonexistent_task_noop dbOneTask "999"
      (JSVal.jstr "X") JSVal.undef JSVal.undef (by decide)).2.2.1
  · exact (update_delete_nonexistent_task_noop dbOneTask "999"
      (JSVal.jstr "X") JSVal.undef JSVal.undef (by decide)).2.2.2.2.2

end TaskManager

namespace TaskManager

/-- A successful task insert with a referenced owner, a string title and
the status parameter bound to the string pending. -/
theorem insertTask_pending_ok (db : DB) (uid : Int) (s : String) (d : SqlVal)
    (hu : ∃ u ∈ db.users, u.id = uid) :
    insertTask true (SqlVal.vint uid) (SqlVal.vstr s) d
      (SqlVal.vstr "pending") db =
      Except.ok (db.nextTaskId,
        { db with
          tasks := db.tasks ++
            [⟨db.nextTaskId, uid, s, sqlToNullable d, some "pending",
              db.now, db.now⟩]
          nextTaskId := db.nextTaskId + 1
          now := db.now + 1 }) := by
  unfold insertTask
  simp [enumStore, enumVals, sqlToInt, sqlToString, hu]

/-- Reduction of the create-task handler on a successful insert. -/
theorem postTasks_ok_reduce {r : Bool} {u t d s : JSVal} {db : DB}
    {p : Int × DB}
    (h : insertTask r u.toSql t.toSql d.toSql
      (if s.truthy then s else JSVal.jstr "pending").toSql db = Except.ok p) :
    postTasksHandler r u t d s db = (⟨201, taskEcho p.1 u t d s⟩, p.2) := by
  unfold postTasksHandler
  rw [h]

/-- C8: a create-task request with an existing user_id and a string title
that omits status stores the task with status defaulted to pending, and
answers 201 echoing the submitted body fields plus the generated id. -/
theorem createTask_omitted_status_defaults_pending (db : DB) (uid : Int)
    (s : String) (d : JSVal) (hu : ∃ u ∈ db.users, u.id = uid) :
    (postTasksHandler true (JSVal.jnum uid) (JSVal.jstr s) d JSVal.undef
      db).1.status = 201 ∧
    (postTasksHandler true (JSVal.jnum uid) (JSVal.jstr s) d JSVal.undef
      db).1.body =
      taskEcho db.nextTaskId (JSVal.jnum uid) (JSVal.jstr s) d JSVal.undef ∧
    (postTasksHandler true (JSVal.jnum uid) (JSVal.jstr s) d JSVal.undef
      db).2.tasks =
      db.tasks ++ [⟨db.nextTaskId, uid, s, sqlToNullable d.toSql,
        some "pending", db.now, db.now⟩] := by
  have hins : insertTask true (JSVal.jnum uid).toSql (JSVal.jstr s).toSql
      d.toSql
      (if JSVal.undef.truthy then JSVal.undef else JSVal.jstr "pending").toSql
      db =
      Except.ok (db.nextTaskId,
        { db with
          tasks := db.tasks ++
            [⟨db.nextTaskId, uid, s, sqlToNullable d.toSql, some "pending",
              db.now, db.now⟩]
          nextTaskId := db.nextTaskId + 1
          now := db.now + 1 }) :=
    insertTask_pending_ok db uid s d.toSql hu
  rw [postTasks_ok_reduce hins]
  exact ⟨rfl, rfl, rfl⟩

theorem createTask_omitted_status_defaults_pending_witness :
    (∃ u ∈ dbOneTask.users, u.id = (1 : Int)) ∧
    (postTasksHandler true (JSVal.jnum 1) (JSVal.jstr "Second task")
      JSVal.undef JSVal.undef dbOneTask).1.status = 201 ∧
    (postTasksHandler true (JSVal.jnum 1) (JSVal.jstr "Second task")
      JSVal.undef JSVal.undef dbOneTask).2.tasks =
      dbOneTask.tasks ++ [⟨dbOneTask.nextTaskId, 1, "Second task",
        sqlToNullable JSVal.undef.toSql, some "pending", dbOneTask.now,
        dbOneTask.now⟩] := by
  have hu : ∃ u ∈ dbOneTask.users, u.id = (1 : Int) :=
    ⟨⟨1, "Alice", "alice at example.com", 0⟩, by decide, rfl⟩
  exact ⟨hu,
    (createTask_omitted_status_defaults_pending dbOneTask 1 "Second task"
      JSVal.undef hu).1,
    (createTask_omitted_status_defaults_pending dbOneTask 1 "Second task"
      JSVal.undef hu).2.2⟩

/-- C10: a create-task request with an existing user_id and a string title
whose status field is any falsy value (absent, null, empty string, 0,
false) stores the task with status pending and answers 201: the falsy
value is replaced before it reaches the ENUM check, so it is never
rejected. -/
theorem createTask_falsy_status_stored_pending (db : DB) (uid : Int)
    (s : String) (d st : JSVal) (hst : st.truthy = false)
    (hu : ∃ u ∈ db.users, u.id = uid) :
    (postTasksHandler true (JSVal.jnum uid) (JSVal.jstr s) d st db).1.status
      = 201 ∧
    (postTasksHandler true (JSVal.jnum uid) (JSVal.jstr s) d st db).2.tasks =
      db.tasks ++ [⟨db.nextTaskId, uid, s, sqlToNullable d.toSql,
        some "pending", db.now, db.now⟩] := by
  have hins : insertTask true (JSVal.jnum uid).toSql (JSVal.jstr s).toSql
      d.toSql (if st.truthy then st else JSVal.jstr "pending").toSql db =
      Except.ok (db.nextTaskId,
        { db with
          tasks := db.tasks ++
            [⟨db.nextTaskId, uid, s, sqlToNullable d.toSql, some "pending",
              db.now, db.now⟩]
          nextTaskId := db.nextTaskId + 1
          now := db.now + 1 }) := by
    rw [hst]
    exact insertTask_pending_ok db uid s d.toSql hu
  rw [postTasks_ok_reduce hins]
  exact ⟨rfl, rfl⟩

theorem createTask_falsy_status_stored_pending_witness :
    (JSVal.jstr "").truthy = false ∧
    (∃ u ∈ dbOneTask.users, u.id = (1 : Int)) ∧
    (postTasksHandler true (JSVal.jnum 1) (JSVal.jstr "Third task")
      JSVal.undef (JSVal.jstr "") dbOneTask).1.status = 201 ∧
    (postTasksHandler true (JSVal.jnum 1) (JSVal.jstr "Third task")
      JSVal.undef (JSVal.jstr "") dbOneTask).2.tasks =
      dbOneTask.tasks ++ [⟨dbOneTask.nextTaskId, 1, "Third task",
        sqlToNullable JSVal.undef.toSql, some "pending", dbOneTask.now,
        dbOneTask.now⟩] := by
  have hu : ∃ u ∈ dbOneTask.users, u.id = (1 : Int) :=
    ⟨⟨1, "Alice", "alice at example.com", 0⟩, by decide, rfl⟩
  exact ⟨rfl, hu,
    (createTask_falsy_status_stored_pending dbOneTask 1 "Third task"
      JSVal.undef (JSVal.jstr "") rfl hu).1,
    (createTask_falsy_status_stored_pending dbOneTask 1 "Third task"
      JSVal.undef (JSVal.jstr "") rfl hu).2⟩

/-- C5 counterexample: an update request on an existing task (id 1) that
omits status — and, being unconditional, also omits title — is rejected by
the NOT NULL constraint on title with 500, and the row keeps its stored
status, contradicting the claim that every such request answers 200 with
the status overwritten. -/
theorem update_omitting_status_counterexample :
    dbOneTask.tasks.any (fun t => t.id = mysqlIntOfString "1") = true ∧
    (putTaskHandler true "1" JSVal.undef JSVal.undef JSVal.undef
      dbOneTask).1.status = 500 ∧
    (putTaskHandler true "1" JSVal.undef JSVal.undef JSVal.undef
      dbOneTask).2 = dbOneTask := by
  decide

/-- C5 amended: the update handler writes title, description and status
unconditionally from the request body; on an existing task, a request
supplying a string title but omitting status answers 200 and overwrites
the stored status with NULL (and description likewise with the bound
description value), refreshing updated_at.  (A request also omitting
title is instead rejected by the NOT NULL constraint with 500.) -/
theorem updateTask_unconditional_overwrite (db : DB) (idParam : String)
    (s : String) (d : JSVal)
    (h : db.tasks.any (fun t => t.id = mysqlIntOfString idParam) = true) :
    (putTaskHandler true idParam (JSVal.jstr s) d JSVal.undef db).1.status
      = 200 ∧
    (putTaskHandler true idParam (JSVal.jstr s) d JSVal.undef db).1.body =
      Json.jobj [("message", Json.jstr "Task updated"),
        ("id", Json.jstr idParam)] ∧
    ∀ t ∈ (putTaskHandler true idParam (JSVal.jstr s) d JSVal.undef
        db).2.tasks,
      t.id = mysqlIntOfString idParam →
        t.status = none ∧ t.title = s ∧
        t.description = sqlToNullable d.toSql ∧ t.updated_at = db.now := by
  have hupd : updateTask true (JSVal.jstr s).toSql d.toSql JSVal.undef.toSql
      (mysqlIntOfString idParam) db =
      Except.ok
        { db with
          tasks := db.tasks.map (fun t =>
            if t.id = mysqlIntOfString idParam then
              { t with
                title := s
                description := sqlToNullable d.toSql
                status := none
                updated_at := db.now }
            else t)
          now := db.now + 1 } := by
    unfold updateTask
    simp [h, JSVal.toSql, enumStore, sqlToString]
  unfold putTaskHandler
  rw [hupd]
  refine ⟨rfl, rfl, ?_⟩
  intro t ht htid
  simp only [List.mem_map] at ht
  obtain ⟨y, hy, hyt⟩ := ht
  by_cases hc : y.id = mysqlIntOfString idParam
  · rw [if_pos hc] at hyt
    rw [← hyt]
    exact ⟨rfl, rfl, rfl, rfl⟩
  · rw [if_neg hc] at hyt
    rw [← hyt] at htid
    exact absurd htid hc

theorem updateTask_unconditional_overwrite_witness :
    dbOneTask.tasks.any (fun t => t.id = mysqlIntOfString "1") = true ∧
    (putTaskHandler true "1" (JSVal.jstr "New title") JSVal.undef JSVal.undef
      dbOneTask).1.status = 200 ∧
    ∀ t ∈ (putTaskHandler true "1" (JSVal.jstr "New title") JSVal.undef
        JSVal.undef dbOneTask).2.tasks,
      t.id = mysqlIntOfString "1" →
        t.status = none ∧ t.title = "New title" ∧
        t.description = sqlToNullable JSVal.undef.toSql ∧
        t.updated_at = dbOneTask.now := by
  refine ⟨by decide,
    (updateTask_unconditional_overwrite dbOneTask "1" "New title"
      JSVal.undef (by decide)).1, ?_⟩
  intro t ht htid
  exact (updateTask_unconditional_overwrite dbOneTask "1" "New title"
    JSVal.undef (by decide)).2.2 t ht htid

end TaskManager

namespace TaskManager

/-- When user ids are unique, filtering users on an id yields exactly the
row `find?` locates (as a list). -/
theorem filter_id_eq_find_toList (l : List UserRow) (x : Int)
    (h : (l.map (fun u => u.id)).Nodup) :
    l.filter (fun u => u.id = x) = (l.find? (fun u => u.id = x)).toList := by
  induction l with
  | nil => rfl
  | cons a rest ih =>
      rw [List.map_cons, List.nodup_cons] at h
      by_cases hx : a.id = x
      · have hnil : rest.filter (fun u => u.id = x) = [] := by
          rw [List.filter_eq_nil_iff]
          intro b hb
          simp only [decide_eq_true_eq]
          intro hbid
          apply h.1
          rw [hx, ← hbid]
          exact List.mem_map_of_mem _ hb
        simp [List.filter_cons, List.find?_cons, hx, hnil]
      · simp [List.filter_cons, List.find?_cons, hx]
        exact ih h.2

/-- With unique user ids the inner join degenerates, task by task, to
looking up the single owning user. -/
theorem joinRows_eq_filterMap (us : List UserRow) (ts : List TaskRow)
    (h : (us.map (fun u => u.id)).Nodup) :
    ts.flatMap (fun t =>
      (us.filter (fun u => u.id = t.user_id)).map (mkJoined t)) =
    ts.filterMap (fun t =>
      (us.find? (fun u => u.id = t.user_id)).map (mkJoined t)) := by
  induction ts with
  | nil => rfl
  | cons t rest ih =>
      rw [List.flatMap_cons, List.filterMap_cons,
        filter_id_eq_find_toList us t.user_id h]
      cases hf : us.find? (fun u => u.id = t.user_id) with
      | none => simpa using ih
      | some u => simpa using ih

/-- C3: for any store whose user ids are unique (always true of real
states, id being the primary key), listing tasks answers 200 with exactly
the tasks whose user_id resolves to an existing user — each row enriched
with that owner's name and email via `mkJoined` — and the rows are sorted
by task creation time descending. -/
theorem listTasks_inner_join_sorted (db : DB)
    (h : (db.users.map (fun u => u.id)).Nodup) :
    getTasksHandler true db =
      (⟨200, Json.jarr ((taskListRows db).map JoinedRow.toJson)⟩, db) ∧
    (taskListRows db).Perm
      (db.tasks.filterMap (fun t =>
        (db.users.find? (fun u => u.id = t.user_id)).map (mkJoined t))) ∧
    List.Sorted joinedCreatedDesc (taskListRows db) := by
  refine ⟨rfl, ?_, List.sorted_insertionSort _ _⟩
  have h2 : joinRows db = db.tasks.filterMap (fun t =>
      (db.users.find? (fun u => u.id = t.user_id)).map (mkJoined t)) := by
    unfold joinRows
    exact joinRows_eq_filterMap db.users db.tasks h
  unfold taskListRows
  rw [← h2]
  exact List.perm_insertionSort _ _

theorem listTasks_inner_join_sorted_witness :
    (dbOneTask.users.map (fun u => u.id)).Nodup ∧
    (taskListRows dbOneTask).Perm
      (dbOneTask.tasks.filterMap (fun t =>
        (dbOneTask.users.find? (fun u => u.id = t.user_id)).map
          (mkJoined t))) ∧
    List.Sorted joinedCreatedDesc (taskListRows dbOneTask) :=
  ⟨by decide,
   (listTasks_inner_join_sorted dbOneTask (by decide)).2.1,
   (listTasks_inner_join_sorted dbOneTask (by decide)).2.2⟩

end TaskManager

namespace TaskManager

/-- Referential integrity of the store: every task's user_id references a
stored user. -/
def fkInv (db : DB) : Prop :=
  ∀ t ∈ db.tasks, ∃ u ∈ db.users, u.id = t.user_id

/-- Shape of a successful user insert: one user row appended, tasks
untouched. -/
theorem insertUser_ok_shape {r : Bool} {n e : SqlVal} {db : DB}
    {p : Int × DB} (h : insertUser r n e db = Except.ok p) :
    p.2.users = db.users ++
      [⟨db.nextUserId, sqlToString n, sqlToString e, db.now⟩] ∧
    p.2.tasks = db.tasks := by
  unfold insertUser at h
  split at h
  · exact Except.noConfusion h
  · split at h
    · exact Except.noConfusion h
    · split at h
      · exact Except.noConfusion h
      · split at h
        · exact Except.noConfusion h
        · injection h with h2
          subst h2
          exact ⟨rfl, rfl⟩

/-- Shape of a successful task insert: users untouched, one task row
appended, and the foreign-key guard passed. -/
theorem insertTask_ok_shape {r : Bool} {uv tv dv sv : SqlVal} {db : DB}
    {p : Int × DB} (h : insertTask r uv tv dv sv db = Except.ok p) :
    p.2.users = db.users ∧
    (∃ st, p.2.tasks = db.tasks ++
      [⟨db.nextTaskId, sqlToInt uv, sqlToString tv, sqlToNullable dv, st,
        db.now, db.now⟩]) ∧
    db.users.any (fun u => u.id = sqlToInt uv) = true := by
  unfold insertTask at h
  split at h
  · exact Except.noConfusion h
  · split at h
    · exact Except.noConfusion h
    · split at h
      · exact Except.noConfusion h
      · split at h
        · exact Except.noConfusion h
        · split at h
          · injection h with h2
            subst h2
            refine ⟨rfl, ⟨_, rfl⟩, ?_⟩
            assumption
          · exact Except.noConfusion h

/-- Shape of a successful task update: users untouched, every resulting
task row keeps the user_id of a pre-existing row. -/
theorem updateTask_ok_shape {r : Bool} {tv dv sv : SqlVal} {tid : Int}
    {db db2 : DB} (h : updateTask r tv dv sv tid db = Except.ok db2) :
    db2.users = db.users ∧
    ∀ x ∈ db2.tasks, ∃ y ∈ db.tasks, y.user_id = x.user_id := by
  unfold updateTask at h
  split at h
  · exact Except.noConfusion h
  · split at h
    · split at h
      · exact Except.noConfusion h
      · split at h
        · exact Except.noConfusion h
        · injection h with h2
          subst h2
          refine ⟨rfl, ?_⟩
          intro x hx
          simp only [List.mem_map] at hx
          obtain ⟨y, hy, hxy⟩ := hx
          refine ⟨y, hy, ?_⟩
          rw [← hxy]
          split
          · rfl
          · rfl
    · injection h with h2
      subst h2
      exact ⟨rfl, fun x hx => ⟨x, hx, rfl⟩⟩

/-- Shape of a successful task delete: users untouched, resulting tasks a
subset of the previous ones. -/
theorem deleteTaskRow_ok_shape {r : Bool} {tid : Int} {db db2 : DB}
    (h : deleteTaskRow r tid db = Except.ok db2) :
    db2.users = db.users ∧ ∀ x ∈ db2.tasks, x ∈ db.tasks := by
  unfold deleteTaskRow at h
  split at h
  · exact Except.noConfusion h
  · injection h with h2
    subst h2
    exact ⟨rfl, fun x hx => List.mem_of_mem_filter hx⟩

theorem fkInv_postUsers {db : DB} (r : Bool) (n e : JSVal) (ih : fkInv db) :
    fkInv (postUsersHandler r n e db).2 := by
  unfold postUsersHandler
  cases hins : insertUser r n.toSql e.toSql db with
  | error m => exact ih
  | ok p =>
      obtain ⟨hu, ht⟩ := insertUser_ok_shape hins
      intro t htm
      have htm2 : t ∈ p.2.tasks := htm
      rw [ht] at htm2
      obtain ⟨w, hw, hwid⟩ := ih t htm2
      refine ⟨w, ?_, hwid⟩
      show w ∈ p.2.users
      rw [hu]
      exact List.mem_append_left _ hw

theorem fkInv_postTasks {db : DB} (r : Bool) (u t d s : JSVal)
    (ih : fkInv db) : fkInv (postTasksHandler r u t d s db).2 := by
  unfold postTasksHandler
  cases hins : insertTask r u.toSql t.toSql d.toSql
      (if s.truthy then s else JSVal.jstr "pending").toSql db with
  | error m => exact ih
  | ok p =>
      obtain ⟨hu, ⟨st, ht⟩, hany⟩ := insertTask_ok_shape hins
      intro x hx
      have hx2 : x ∈ p.2.tasks := hx
      rw [ht, List.mem_append] at hx2
      cases hx2 with
      | inl hold =>
          obtain ⟨w, hw, hwid⟩ := ih x hold
          refine ⟨w, ?_, hwid⟩
          show w ∈ p.2.users
          rw [hu]
          exact hw
      | inr hnew =>
          rw [List.mem_singleton] at hnew
          subst hnew
          rw [List.any_eq_true] at hany
          obtain ⟨w, hw, hwid⟩ := hany
          refine ⟨w, ?_, ?_⟩
          · show w ∈ p.2.users
            rw [hu]
            exact hw
          · simpa using hwid

theorem fkInv_putTask {db : DB} (r : Bool) (i : String) (t d s : JSVal)
    (ih : fkInv db) : fkInv (putTaskHandler r i t d s db).2 := by
  unfold putTaskHandler
  cases hupd : updateTask r t.toSql d.toSql s.toSql (mysqlIntOfString i)
      db with
  | error m => exact ih
  | ok db2 =>
      obtain ⟨hu, hmap⟩ := updateTask_ok_shape hupd
      intro x hx
      have hx2 : x ∈ db2.tasks := hx
      obtain ⟨y, hy, hyid⟩ := hmap x hx2
      obtain ⟨w, hw, hwid⟩ := ih y hy
      refine ⟨w, ?_, ?_⟩
      · show w ∈ db2.users
        rw [hu]
        exact hw
      · rw [hwid, hyid]

theorem fkInv_deleteTask {db : DB} (r : Bool) (i : String) (ih : fkInv db) :
    fkInv (deleteTaskHandler r i db).2 := by
  unfold deleteTaskHandler
  cases hdel : deleteTaskRow r (mysqlIntOfString i) db with
  | error m => exact ih
  | ok db2 =>
      obtain ⟨hu, hsub⟩ := deleteTaskRow_ok_shape hdel
      intro x hx
      have hx2 : x ∈ db2.tasks := hx
      obtain ⟨w, hw, hwid⟩ := ih x (hsub x hx2)
      refine ⟨w, ?_, hwid⟩
      show w ∈ db2.users
      rw [hu]
      exact hw

theorem fkInv_deleteUser {db : DB} (uid : Int) (ih : fkInv db) :
    fkInv (deleteUser db uid) := by
  intro t ht
  have htm : t ∈ (deleteUser db uid).tasks := ht
  simp only [deleteUser] at htm
  rw [List.mem_filter] at htm
  have hne : t.user_id ≠ uid := by simpa using htm.2
  obtain ⟨w, hw, hwid⟩ := ih t htm.1
  refine ⟨w, ?_, hwid⟩
  show w ∈ (deleteUser db uid).users
  simp only [deleteUser]
  rw [List.mem_filter]
  refine ⟨hw, ?_⟩
  simp only [Bool.not_eq_true']
  simp only [decide_eq_false_iff_not]
  rw [hwid]
  exact hne

/-- C7: in every reachable store state each task's user_id references an
existing user, and deleting a user removes (in the same operation, by the
declared cascade) exactly that user's tasks: the surviving tasks are those
of other owners, and the task listing of the resulting state contains no
row owned by the deleted user. -/
theorem task_owner_invariant_and_cascade (db : DB) (hr : Reach db) :
    (∀ t ∈ db.tasks, ∃ u ∈ db.users, u.id = t.user_id) ∧
    ∀ uid : Int,
      (deleteUser db uid).tasks =
        db.tasks.filter (fun t => !(t.user_id = uid)) ∧
      ∀ row ∈ taskListRows (deleteUser db uid), ¬(row.user_id = uid) := by
  constructor
  · have hinv : fkInv db := by
      induction hr with
      | init => intro t ht; exact absurd ht (List.not_mem_nil t)
      | stepUser r n e hprev ih => exact fkInv_postUsers r n e ih
      | stepTask r u t d s hprev ih => exact fkInv_postTasks r u t d s ih
      | stepPut r i t d s hprev ih => exact fkInv_putTask r i t d s ih
      | stepDelTask r i hprev ih => exact fkInv_deleteTask r i ih
      | stepDelUser uid hprev ih => exact fkInv_deleteUser uid ih
    exact hinv
  · intro uid
    refine ⟨rfl, ?_⟩
    intro row hrow
    have hmem : row ∈ joinRows (deleteUser db uid) := by
      have hperm := List.perm_insertionSort joinedCreatedDesc
        (joinRows (deleteUser db uid))
      exact hperm.mem_iff.mp hrow
    unfold joinRows at hmem
    rw [List.mem_flatMap] at hmem
    obtain ⟨t, ht, hrow2⟩ := hmem
    rw [List.mem_map] at hrow2
    obtain ⟨w, hw, hmk⟩ := hrow2
    have htm : t ∈ (deleteUser db uid).tasks := ht
    simp only [deleteUser] at htm
    rw [List.mem_filter] at htm
    have hne : t.user_id ≠ uid := by simpa using htm.2
    rw [← hmk]
    simpa [mkJoined, JoinedRow.user_id] using hne

theorem task_owner_invariant_and_cascade_witness :
    (∀ t ∈ dbOneTask.tasks, ∃ u ∈ dbOneTask.users, u.id = t.user_id) ∧
    (deleteUser dbOneTask 1).tasks =
      dbOneTask.tasks.filter (fun t => !(t.user_id = 1)) := by
  have hr : Reach dbOneTask :=
    Reach.stepTask true (JSVal.jnum 1) (JSVal.jstr "Write report")
      JSVal.undef JSVal.undef
      (Reach.stepUser true (JSVal.jstr "Alice")
        (JSVal.jstr "alice at example.com") Reach.init)
  exact ⟨(task_owner_invariant_and_cascade dbOneTask hr).1,
    ((task_owner_invariant_and_cascade dbOneTask hr).2 1).1⟩

end TaskManager


namespace TaskManager

/-- The JSON body each handler actually emits on a failed store
operation: the flat `{ error }` object for every /api route, but
`{ status: unhealthy, error }` for the health probe. -/
def errShape : Request → Json → Prop
  | Request.health, b => ∃ m, b = Json.jobj [("status", Json.jstr "unhealthy"),
      ("error", Json.jstr m)]
  | _, b => ∃ m, b = errBody m

/-- C9 counterexample: the health handler's failure response is 500, but
its body is not the flat `{ error: message }` object the claim asserts for
every handler — it carries an extra status field. -/
theorem health_error_body_not_flat :
    (healthHandler false dbInit).1.status = 500 ∧
    (healthHandler false dbInit).1.body =
      Json.jobj [("status", Json.jstr "unhealthy"),
        ("error", Json.jstr connErr)] ∧
    ¬ ∃ m, (healthHandler false dbInit).1.body = errBody m := by
  refine ⟨rfl, rfl, ?_⟩
  rintro ⟨m, hm⟩
  simp [healthHandler, errBody] at hm

theorem postUsers_status_shape (r : Bool) (n e : JSVal) (db : DB) :
    ((postUsersHandler r n e db).1.status = 201 ∨
      (postUsersHandler r n e db).1.status = 500) ∧
    ((postUsersHandler r n e db).1.status = 500 →
      ∃ m, (postUsersHandler r n e db).1.body = errBody m) := by
  unfold postUsersHandler
  cases hins : insertUser r n.toSql e.toSql db with
  | ok p =>
      obtain ⟨newId, db2⟩ := p
      exact ⟨Or.inl rfl, fun hc => by simp at hc⟩
  | error m => exact ⟨Or.inr rfl, fun _ => ⟨m, rfl⟩⟩

theorem postTasks_status_shape (r : Bool) (u t d s : JSVal) (db : DB) :
    ((postTasksHandler r u t d s db).1.status = 201 ∨
      (postTasksHandler r u t d s db).1.status = 500) ∧
    ((postTasksHandler r u t d s db).1.status = 500 →
      ∃ m, (postTasksHandler r u t d s db).1.body = errBody m) := by
  unfold postTasksHandler
  cases hins : insertTask r u.toSql t.toSql d.toSql
      (if s.truthy then s else JSVal.jstr "pending").toSql db with
  | ok p =>
      obtain ⟨newId, db2⟩ := p
      exact ⟨Or.inl rfl, fun hc => by simp at hc⟩
  | error m => exact ⟨Or.inr rfl, fun _ => ⟨m, rfl⟩⟩

theorem putTask_status_shape (r : Bool) (i : String) (t d s : JSVal)
    (db : DB) :
    ((putTaskHandler r i t d s db).1.status = 200 ∨
      (putTaskHandler r i t d s db).1.status = 500) ∧
    ((putTaskHandler r i t d s db).1.status = 500 →
      ∃ m, (putTaskHandler r i t d s db).1.body = errBody m) := by
  unfold putTaskHandler
  cases hupd : updateTask r t.toSql d.toSql s.toSql (mysqlIntOfString i)
      db with
  | ok db2 => exact ⟨Or.inl rfl, fun hc => by simp at hc⟩
  | error m => exact ⟨Or.inr rfl, fun _ => ⟨m, rfl⟩⟩

theorem deleteTask_status_shape (r : Bool) (i : String) (db : DB) :
    ((deleteTaskHandler r i db).1.status = 200 ∨
      (deleteTaskHandler r i db).1.status = 500) ∧
    ((deleteTaskHandler r i db).1.status = 500 →
      ∃ m, (deleteTaskHandler r i db).1.body = errBody m) := by
  unfold deleteTaskHandler
  cases hdel : deleteTaskRow r (mysqlIntOfString i) db with
  | ok db2 => exact ⟨Or.inl rfl, fun hc => by simp at hc⟩
  | error m => exact ⟨Or.inr rfl, fun _ => ⟨m, rfl⟩⟩

/-- C9 amended: every handler answers only 200, 201 or 500 (never 400 or
404, and — being a total function of the request and store outcome — no
request-time failure crashes the process), and every 500 carries the flat
`{ error: message }` body, except the health probe, whose failure body is
`{ status: unhealthy, error: message }` rather than the flat object. -/
theorem error_responses_uniform_500 (req : Request) (reachable : Bool)
    (db : DB) :
    ((handle req reachable db).1.status = 200 ∨
      (handle req reachable db).1.status = 201 ∨
      (handle req reachable db).1.status = 500) ∧
    ((handle req reachable db).1.status = 500 →
      errShape req (handle req reachable db).1.body) := by
  cases req with
  | health =>
      cases reachable
      · exact ⟨Or.inr (Or.inr rfl), fun _ => ⟨connErr, rfl⟩⟩
      · refine ⟨Or.inl rfl, fun hc => ?_⟩
        simp [handle, healthHandler] at hc
  | getUsers =>
      cases reachable
      · exact ⟨Or.inr (Or.inr rfl), fun _ => ⟨connErr, rfl⟩⟩
      · refine ⟨Or.inl rfl, fun hc => ?_⟩
        simp [handle, getUsersHandler] at hc
  | postUsers n e =>
      obtain ⟨h1, h2⟩ := postUsers_status_shape reachable n e db
      refine ⟨?_, ?_⟩
      · rcases h1 with h | h
        · exact Or.inr (Or.inl h)
        · exact Or.inr (Or.inr h)
      · intro hc
        exact h2 hc
  | getTasks =>
      cases reachable
      · exact ⟨Or.inr (Or.inr rfl), fun _ => ⟨connErr, rfl⟩⟩
      · refine ⟨Or.inl rfl, fun hc => ?_⟩
        simp [handle, getTasksHandler] at hc
  | postTasks u t d s =>
      obtain ⟨h1, h2⟩ := postTasks_status_shape reachable u t d s db
      refine ⟨?_, ?_⟩
      · rcases h1 with h | h
        · exact Or.inr (Or.inl h)
        · exact Or.inr (Or.inr h)
      · intro hc
        exact h2 hc
  | putTask i t d s =>
      obtain ⟨h1, h2⟩ := putTask_status_shape reachable i t d s db
      refine ⟨?_, ?_⟩
      · rcases h1 with h | h
        · exact Or.inl h
        · exact Or.inr (Or.inr h)
      · intro hc
        exact h2 hc
  | deleteTask i =>
      obtain ⟨h1, h2⟩ := deleteTask_status_shape reachable i db
      refine ⟨?_, ?_⟩
      · rcases h1 with h | h
        · exact Or.inl h
        · exact Or.inr (Or.inr h)
      · intro hc
        exact h2 hc

theorem error_responses_uniform_500_witness :
    (handle (Request.postUsers JSVal.undef JSVal.undef) false dbInit).1.status
      = 500 ∧
    errShape (Request.postUsers JSVal.undef JSVal.undef)
      (handle (Request.postUsers JSVal.undef JSVal.undef) false
        dbInit).1.body :=
  ⟨rfl,
   (error_responses_uniform_500 (Request.postUsers JSVal.undef JSVal.undef)
     false dbInit).2 rfl⟩

end TaskManager
